import Mathlib

/-!
# Cache-First Offline Asset Service — verification of the Dwellable service worker

Shallow embedding of `src/sw.js` (the hand-written service worker) together
with the service-worker variants emitted by `createServiceWorker` in
`src/optimize-simple.js` and `src/optimize-local.js`.

The service worker interacts with two host-platform facilities that the
embedding models by their standard semantics:

* the Cache Storage API (`caches.open`, `caches.match`, `caches.delete`,
  `Cache.addAll`): a per-origin map from cache names to caches, each cache a
  map from request URL to stored response; only GET requests are storable and
  matchable; `Cache.addAll` fetches every listed URL, rejects if any fetch
  fails or yields a non-success status, and performs its writes as one atomic
  batch (all entries written, or none);
* the network, modelled as a pure function from requests to an optional
  response (`none` = network failure).

Install activates a generation only on success (service-worker lifecycle).
-/

/-- A request identity: HTTP method plus URL. -/
structure Request where
  method : String
  url : String
deriving DecidableEq, Repr

/-- A stored or network response: status plus body. -/
structure Response where
  status : Nat
  body : String
deriving DecidableEq, Repr

/-- `Response.ok`: success status in the 200–299 range (the condition the
Cache API `addAll` requires of every fetched response). -/
def Response.ok (r : Response) : Bool :=
  decide (200 ≤ r.status) && decide (r.status < 300)

/-- A single cache: an association list from request URL to stored response
(the Cache API keys stored entries by URL; only GET entries exist). -/
abbrev Cache := List (String × Response)

/-- The per-origin cache storage: an association list from cache name to
cache, kept in creation order (the order `caches.match` searches). -/
abbrev CacheStorage := List (String × Cache)

/-- The network: a pure map from request to optional response; `none` models
a network failure. -/
abbrev Network := Request → Option Response

/-- First-match association-list lookup (string keys). -/
def alookup {β : Type} (k : String) : List (String × β) → Option β
  | [] => none
  | (k', v) :: rest => if k' = k then some v else alookup k rest

/-- `caches.open name`: return the storage, creating an empty cache under
`name` at the end (creation order) when none exists yet. -/
def openCache (n : String) (cs : CacheStorage) : CacheStorage :=
  if (alookup n cs).isSome then cs else cs ++ [(n, [])]

/-- `caches.delete name`: remove the cache stored under `name`. -/
def deleteCache (n : String) : CacheStorage → CacheStorage
  | [] => []
  | (n', c) :: rest =>
    if n' = n then deleteCache n rest else (n', c) :: deleteCache n rest

/-- Replace the cache stored under `n` by `f` applied to it (no-op when the
name is absent). -/
def updateStore (n : String) (f : Cache → Cache) : CacheStorage → CacheStorage
  | [] => []
  | (n', c) :: rest =>
    if n' = n then (n', f c) :: rest else (n', c) :: updateStore n f rest

/-- `cache.put url r`: overwrite the entry for `url` in place, appending a
fresh entry when the URL is not yet present. -/
def cachePut (u : String) (r : Response) : Cache → Cache
  | [] => [(u, r)]
  | (u', r') :: rest =>
    if u' = u then (u, r) :: rest else (u', r') :: cachePut u r rest

/-- Write a batch of fetched entries into a cache, in list order (the atomic
write phase of `Cache.addAll`). -/
def putAll : List (String × Response) → Cache → Cache
  | [], c => c
  | (u, r) :: rest, c => putAll rest (cachePut u r c)

/-- The keys (request URLs) of a cache, in storage order. -/
def cacheKeys (c : Cache) : List String := c.map Prod.fst

/-- The keys of the cache stored under `n`, when that cache exists. -/
def storeKeys (n : String) (cs : CacheStorage) : Option (List String) :=
  (alookup n cs).map cacheKeys

/-- The fetch phase of `Cache.addAll`: issue a GET for every manifest URL;
succeed with the list of entries only if every fetch returns a response with
a success status, otherwise fail. -/
def fetchAll (net : Network) : List String → Option (List (String × Response))
  | [] => some []
  | u :: rest =>
    match net { method := "GET", url := u } with
    | none => none
    | some r =>
      if r.ok then (fetchAll net rest).map (fun es => (u, r) :: es) else none

/-- Whether a single install-time fetch of URL `u` succeeds with a success
status. -/
def fetchOk (net : Network) (u : String) : Bool :=
  match net { method := "GET", url := u } with
  | none => false
  | some r => r.ok

/-- `cache.match request`: a stored response for the request's URL, but only
for GET requests (the Cache API never matches other methods by default). -/
def cacheMatch (req : Request) (c : Cache) : Option Response :=
  if req.method = "GET" then alookup req.url c else none

/-- `caches.match request`: search every cache of the storage in creation
order and return the first match. -/
def cachesMatch (req : Request) : CacheStorage → Option Response
  | [] => none
  | (_, c) :: rest =>
    match cacheMatch req c with
    | some r => some r
    | none => cachesMatch req rest

/-- `src/sw.js` line 1: the generation tag. -/
def CACHE_NAME : String := "dwellable-v1"

/-- `src/sw.js` lines 2–10: the cache manifest. -/
def urlsToCache : List String :=
  ["/", "/index.html", "/join.html", "/home.png", "/reminders.png",
   "/property_info.png", "/inspection.png"]

/-- The install handler, generic in the embedded generation tag and manifest:
`caches.open(tag).then(cache => cache.addAll(manifest))`. Returns whether the
install succeeded together with the resulting cache storage; on failure the
opened (possibly fresh, empty) cache remains but no entry was written. -/
def installGen (tag : String) (manifest : List String) (net : Network)
    (cs : CacheStorage) : Bool × CacheStorage :=
  let cs1 := openCache tag cs
  match fetchAll net manifest with
  | some entries => (true, updateStore tag (fun c => putAll entries c) cs1)
  | none => (false, cs1)

/-- `src/sw.js` lines 12–17: the install handler with the manifest of
`src/sw.js`, generic in the generation tag. -/
def installWith (tag : String) : Network → CacheStorage → Bool × CacheStorage :=
  installGen tag urlsToCache

/-- `src/sw.js` lines 12–17: the install handler as shipped. -/
def install : Network → CacheStorage → Bool × CacheStorage :=
  installWith CACHE_NAME

/-- Service-worker lifecycle: a generation activates exactly when its install
succeeded. -/
def generationActivates (net : Network) (cs : CacheStorage) : Bool :=
  (install net cs).1

/-- `src/sw.js` lines 19–24: the fetch handler
`caches.match(event.request).then(response => response || fetch(event.request))`.
Returns the resulting cache storage, the response delivered to the requester
(`none` = the network error is propagated), and the number of network calls
issued while handling the event. -/
def fetchEvent (net : Network) (cs : CacheStorage) (req : Request) :
    CacheStorage × Option Response × Nat :=
  match cachesMatch req cs with
  | some r => (cs, some r, 0)
  | none => (cs, net req, 1)

/-- The event kinds `src/sw.js` registers listeners for (lines 12 and 19);
there is no `activate` listener. -/
def registeredEvents : List String := ["install", "fetch"]

/-- Modelled from the spec (for comparison, §4.1 `ACTIVE`): look up the
request's identity in the current generation's durable store, and only in
that store. -/
def currentGenMatch (req : Request) (cs : CacheStorage) : Option Response :=
  match alookup CACHE_NAME cs with
  | some c => cacheMatch req c
  | none => none

/-- Modelled from the spec (for comparison, §7): the behaviour of a fetch
with no service worker installed — a single pass-through network call. -/
def uncachedFetch (net : Network) (cs : CacheStorage) (req : Request) :
    CacheStorage × Option Response × Nat :=
  (cs, net req, 1)

/-- `src/optimize-simple.js` line 53 (inside the `createServiceWorker`
template): the emitted generation tag. -/
def simpleSW_CACHE_NAME : String := "dwellable-v1"

/-- `src/optimize-simple.js` lines 54–61: the emitted cache manifest. -/
def simpleSW_urlsToCache : List String :=
  ["/", "/index.min.html", "/home.png", "/reminders.png",
   "/property_info.png", "/inspection.png"]

/-- `src/optimize-local.js` line 152 (inside the `createServiceWorker`
template): the emitted generation tag. -/
def localSW_CACHE_NAME : String := "dwellable-v1"

/-- `src/optimize-local.js` lines 153–160: the emitted cache manifest. -/
def localSW_urlsToCache : List String :=
  ["/", "/index.min.html", "/home.webp", "/reminders.webp",
   "/property_info.webp", "/inspection.webp"]

/-! ## Association-list lemmas -/

theorem alookup_append {β : Type} (k : String) (l₁ l₂ : List (String × β)) :
    alookup k (l₁ ++ l₂) = ((alookup k l₁).orElse (fun _ => alookup k l₂)) := by
  induction l₁ with
  | nil => simp [alookup, Option.orElse]
  | cons p rest ih =>
    obtain ⟨k', v⟩ := p
    by_cases h : k' = k <;> simp [alookup, h, ih, Option.orElse]

theorem alookup_openCache_self (n : String) (cs : CacheStorage) :
    ∃ c, alookup n (openCache n cs) = some c := by
  cases hm : alookup n cs with
  | some c => exact ⟨c, by simp [openCache, hm]⟩
  | none =>
    refine ⟨[], ?_⟩
    have he : openCache n cs = cs ++ [(n, [])] := by simp [openCache, hm]
    rw [he, alookup_append, hm]
    simp [alookup, Option.orElse]

theorem alookup_openCache_absent (n : String) (cs : CacheStorage)
    (h : alookup n cs = none) : alookup n (openCache n cs) = some [] := by
  have he : openCache n cs = cs ++ [(n, [])] := by simp [openCache, h]
  rw [he, alookup_append, h]
  simp [alookup, Option.orElse]

theorem alookup_openCache_other (m n : String) (cs : CacheStorage)
    (h : m ≠ n) : alookup m (openCache n cs) = alookup m cs := by
  cases hs : alookup n cs with
  | some c => simp [openCache, hs]
  | none =>
    have he : openCache n cs = cs ++ [(n, [])] := by simp [openCache, hs]
    rw [he, alookup_append]
    cases hm : alookup m cs <;> simp [hm, alookup, Ne.symm h, Option.orElse]

theorem openCache_of_present (n : String) (cs : CacheStorage)
    (h : (alookup n cs).isSome) : openCache n cs = cs := by
  unfold openCache
  simp [h]

theorem alookup_updateStore_self (n : String) (f : Cache → Cache)
    (cs : CacheStorage) :
    alookup n (updateStore n f cs) = (alookup n cs).map f := by
  induction cs with
  | nil => simp [updateStore, alookup]
  | cons p rest ih =>
    obtain ⟨n', c⟩ := p
    by_cases h : n' = n <;> simp [updateStore, alookup, h, ih]

theorem alookup_updateStore_other (m n : String) (f : Cache → Cache)
    (cs : CacheStorage) (h : m ≠ n) :
    alookup m (updateStore n f cs) = alookup m cs := by
  induction cs with
  | nil => simp [updateStore]
  | cons p rest ih =>
    obtain ⟨n', c⟩ := p
    by_cases h1 : n' = n
    · subst h1
      simp [updateStore, alookup, Ne.symm h, ih]
    · by_cases h2 : n' = m <;> simp [updateStore, alookup, h1, h2, h, ih]

theorem alookup_deleteCache_self (n : String) (cs : CacheStorage) :
    alookup n (deleteCache n cs) = none := by
  induction cs with
  | nil => simp [deleteCache, alookup]
  | cons p rest ih =>
    obtain ⟨n', c⟩ := p
    by_cases h : n' = n <;> simp [deleteCache, h, alookup, ih]

theorem alookup_deleteCache_other (m n : String) (cs : CacheStorage)
    (h : m ≠ n) : alookup m (deleteCache n cs) = alookup m cs := by
  induction cs with
  | nil => simp [deleteCache]
  | cons p rest ih =>
    obtain ⟨n', c⟩ := p
    by_cases h1 : n' = n
    · subst h1
      simp [deleteCache, alookup, Ne.symm h, ih]
    · by_cases h2 : n' = m <;> simp [deleteCache, h1, h2, h, alookup, ih]

theorem alookup_cachePut_self (u : String) (r : Response) (c : Cache) :
    alookup u (cachePut u r c) = some r := by
  induction c with
  | nil => simp [cachePut, alookup]
  | cons p rest ih =>
    obtain ⟨u', r'⟩ := p
    by_cases h : u' = u <;> simp [cachePut, alookup, h, ih]

theorem alookup_cachePut_other (v u : String) (r : Response) (c : Cache)
    (h : v ≠ u) : alookup v (cachePut u r c) = alookup v c := by
  induction c with
  | nil => simp [cachePut, alookup, Ne.symm h]
  | cons p rest ih =>
    obtain ⟨u', r'⟩ := p
    by_cases h1 : u' = u
    · subst h1
      simp [cachePut, alookup, Ne.symm h]
    · by_cases h2 : u' = v <;> simp [cachePut, alookup, h1, h2, h, ih]

theorem alookup_putAll_isSome (l : List (String × Response)) (u : String)
    (c : Cache) (h : u ∈ l.map Prod.fst ∨ (alookup u c).isSome) :
    (alookup u (putAll l c)).isSome := by
  induction l generalizing c with
  | nil =>
    rcases h with h | h
    · simp at h
    · simpa [putAll] using h
  | cons p rest ih =>
    obtain ⟨v, r⟩ := p
    apply ih
    by_cases hv : u = v
    · subst hv
      right
      simp [alookup_cachePut_self]
    · rcases h with h | h
      · simp only [List.map_cons, List.mem_cons] at h
        rcases h with h | h
        · exact absurd h hv
        · exact Or.inl h
      · right
        rwa [alookup_cachePut_other u v r c hv]

/-! ## Lemmas about the install-time bulk fetch -/

theorem fetchAll_keys (net : Network) (l : List String)
    (entries : List (String × Response)) (h : fetchAll net l = some entries) :
    entries.map Prod.fst = l := by
  induction l generalizing entries with
  | nil =>
    have he : entries = [] := by simpa [fetchAll, eq_comm] using h
    simp [he]
  | cons u rest ih =>
    unfold fetchAll at h
    cases hn : net { method := "GET", url := u } with
    | none => simp [hn] at h
    | some r =>
      simp only [hn] at h
      by_cases hok : r.ok
      · simp only [hok, if_true] at h
        cases he : fetchAll net rest with
        | none => simp [he] at h
        | some es =>
          simp only [he, Option.map_some', Option.some.injEq] at h
          simp [← h, ih es he]
      · simp [hok] at h

theorem fetchAll_of_failure (net : Network) (l : List String) (u : String)
    (hu : u ∈ l) (hfail : fetchOk net u = false) : fetchAll net l = none := by
  induction l with
  | nil => simp at hu
  | cons v rest ih =>
    unfold fetchAll
    rcases List.mem_cons.mp hu with h | h
    · subst h
      unfold fetchOk at hfail
      cases hn : net { method := "GET", url := u } with
      | none => rfl
      | some r =>
        simp only [hn] at hfail
        simp [hfail]
    · cases hn : net { method := "GET", url := v } with
      | none => rfl
      | some r =>
        by_cases hok : r.ok <;> simp [hok, ih h]

/-! ## Lemmas about cache matching -/

theorem cachesMatch_of_store (req : Request) (cs : CacheStorage) (n : String)
    (c : Cache) (r : Response) (hs : alookup n cs = some c)
    (hm : cacheMatch req c = some r) :
    ∃ r', cachesMatch req cs = some r' := by
  induction cs with
  | nil => simp [alookup] at hs
  | cons p rest ih =>
    obtain ⟨n', c'⟩ := p
    cases hm' : cacheMatch req c' with
    | some r' => exact ⟨r', by simp [cachesMatch, hm']⟩
    | none =>
      by_cases h : n' = n
      · subst h
        have hc : c' = c := by simpa [alookup] using hs
        rw [hc, hm] at hm'
        exact absurd hm' (by simp)
      · have hs' : alookup n rest = some c := by simpa [alookup, h] using hs
        obtain ⟨r', hr'⟩ := ih hs'
        exact ⟨r', by simp [cachesMatch, hm', hr']⟩

theorem cachesMatch_nonGET (req : Request) (cs : CacheStorage)
    (h : req.method ≠ "GET") : cachesMatch req cs = none := by
  induction cs with
  | nil => rfl
  | cons p rest ih =>
    obtain ⟨n, c⟩ := p
    simp [cachesMatch, cacheMatch, h, ih]

theorem fetchEvent_storage (net : Network) (cs : CacheStorage)
    (req : Request) : (fetchEvent net cs req).1 = cs := by
  unfold fetchEvent
  cases cachesMatch req cs <;> rfl

/-! ## Lemmas about the install handler -/

theorem alookup_installGen_other (tag tag' : String) (m : List String)
    (net : Network) (cs : CacheStorage) (h : tag' ≠ tag) :
    alookup tag' (installGen tag m net cs).2 = alookup tag' cs := by
  have h2 := alookup_openCache_other tag' tag cs h
  unfold installGen
  cases hf : fetchAll net m with
  | none => simpa [hf] using h2
  | some entries =>
    simp only [hf]
    rw [alookup_updateStore_other _ _ _ _ h]
    exact h2

theorem alookup_installGen_self (tag : String) (m : List String)
    (net : Network) (cs : CacheStorage) :
    ∃ c, alookup tag (installGen tag m net cs).2 = some c := by
  obtain ⟨c0, hc0⟩ := alookup_openCache_self tag cs
  unfold installGen
  cases hf : fetchAll net m with
  | none => exact ⟨c0, by simpa [hf] using hc0⟩
  | some entries =>
    refine ⟨putAll entries c0, ?_⟩
    simp only [hf]
    rw [alookup_updateStore_self, hc0]
    rfl

/-! ## Lemmas about cache keys -/

theorem cacheKeys_cachePut (u : String) (r : Response) (c : Cache) :
    cacheKeys (cachePut u r c) =
      if u ∈ cacheKeys c then cacheKeys c else cacheKeys c ++ [u] := by
  induction c with
  | nil => simp [cachePut, cacheKeys]
  | cons p rest ih =>
    obtain ⟨v, r'⟩ := p
    by_cases h : v = u
    · subst h
      simp [cachePut, cacheKeys]
    · have hne : u ≠ v := Ne.symm h
      simp only [cachePut, if_neg h, cacheKeys, List.map_cons] at ih ⊢
      rw [ih]
      by_cases hm : u ∈ rest.map Prod.fst <;>
        simp [hm, List.mem_cons, hne]

theorem mem_cacheKeys_putAll (l : List (String × Response)) (c : Cache)
    (w : String) (h : w ∈ l.map Prod.fst ∨ w ∈ cacheKeys c) :
    w ∈ cacheKeys (putAll l c) := by
  induction l generalizing c with
  | nil =>
    rcases h with h | h
    · simp at h
    · simpa [putAll] using h
  | cons p rest ih =>
    obtain ⟨u, r⟩ := p
    apply ih
    rw [cacheKeys_cachePut]
    by_cases hv : w = u
    · subst hv
      right
      by_cases hm : w ∈ cacheKeys c <;> simp [hm]
    · rcases h with h | h
      · simp only [List.map_cons, List.mem_cons] at h
        rcases h with h | h
        · exact absurd h hv
        · exact Or.inl h
      · right
        by_cases hm : u ∈ cacheKeys c <;> simp [hm, h]

theorem cacheKeys_putAll_covered (l : List (String × Response)) (c : Cache)
    (h : ∀ w ∈ l.map Prod.fst, w ∈ cacheKeys c) :
    cacheKeys (putAll l c) = cacheKeys c := by
  induction l generalizing c with
  | nil => rfl
  | cons p rest ih =>
    obtain ⟨u, r⟩ := p
    have hu : u ∈ cacheKeys c := h u (by simp)
    have hkeys : cacheKeys (cachePut u r c) = cacheKeys c := by
      rw [cacheKeys_cachePut]
      simp [hu]
    rw [putAll, ih (cachePut u r c) ?_, hkeys]
    intro w hw
    rw [hkeys]
    exact h w (by simp [hw])

theorem nodup_cacheKeys_putAll (l : List (String × Response)) (c : Cache)
    (h : (cacheKeys c).Nodup) : (cacheKeys (putAll l c)).Nodup := by
  induction l generalizing c with
  | nil => simpa [putAll] using h
  | cons p rest ih =>
    obtain ⟨u, r⟩ := p
    apply ih
    rw [cacheKeys_cachePut]
    by_cases hm : u ∈ cacheKeys c
    · simpa [hm] using h
    · simp only [hm, if_false]
      rw [List.nodup_append]
      exact ⟨h, List.nodup_singleton u, by simpa [List.disjoint_singleton] using hm⟩

/-! ## Claims -/

/-- C10: all three service-worker variants in the repository — `src/sw.js`
and the workers emitted by `createServiceWorker` in `optimize-simple.js` and
`optimize-local.js` — embed the identical generation tag `'dwellable-v1'`,
while their cache manifests are not all equal; hence deploying a different
variant repopulates the store named `dwellable-v1` rather than creating a new
generation. -/
theorem variants_share_generation_tag :
    CACHE_NAME = "dwellable-v1" ∧ simpleSW_CACHE_NAME = CACHE_NAME ∧
    localSW_CACHE_NAME = CACHE_NAME ∧
    ¬(urlsToCache = simpleSW_urlsToCache ∧
      simpleSW_urlsToCache = localSW_urlsToCache) := by
  refine ⟨rfl, rfl, rfl, ?_⟩
  intro h
  exact absurd h.1 (by decide)

theorem cachesMatch_after_install (net : Network) (cs : CacheStorage)
    (u : String) (hinstall : (install net cs).1 = true) (hu : u ∈ urlsToCache) :
    ∃ r, cachesMatch { method := "GET", url := u } (install net cs).2 = some r := by
  unfold install installWith installGen at hinstall ⊢
  cases hf : fetchAll net urlsToCache with
  | none => rw [hf] at hinstall; simp at hinstall
  | some entries =>
    simp only [hf]
    obtain ⟨c0, hc0⟩ := alookup_openCache_self CACHE_NAME cs
    have hself : alookup CACHE_NAME
        (updateStore CACHE_NAME (fun c => putAll entries c)
          (openCache CACHE_NAME cs)) = some (putAll entries c0) := by
      rw [alookup_updateStore_self, hc0]
      rfl
    have hkeys : entries.map Prod.fst = urlsToCache :=
      fetchAll_keys net urlsToCache entries hf
    have hmem : u ∈ entries.map Prod.fst := by rw [hkeys]; exact hu
    have hsome := alookup_putAll_isSome entries u c0 (Or.inl hmem)
    obtain ⟨rr, hrr⟩ := Option.isSome_iff_exists.mp hsome
    have hcm : cacheMatch { method := "GET", url := u } (putAll entries c0) =
        some rr := by simp [cacheMatch, hrr]
    exact cachesMatch_of_store _ _ CACHE_NAME _ rr hself hcm

/-- C1: a fetch whose request has a stored response in the cache storage is
answered with that stored response verbatim and issues no network call; and
once install has succeeded, a fetch for any manifest URL issues no network
call. -/
theorem cache_hit_no_network (net net' net'' : Network) (cs cs' : CacheStorage)
    (req : Request) (r : Response) (u : String)
    (hmatch : cachesMatch req cs = some r)
    (hinstall : (install net' cs').1 = true) (hu : u ∈ urlsToCache) :
    fetchEvent net cs req = (cs, some r, 0) ∧
    (fetchEvent net'' (install net' cs').2 { method := "GET", url := u }).2.2
      = 0 := by
  constructor
  · simp [fetchEvent, hmatch]
  · obtain ⟨rr, hrr⟩ := cachesMatch_after_install net' cs' u hinstall hu
    simp [fetchEvent, hrr]

/-- C1 witness: at a one-entry storage the hit is served with zero network
calls, and after a successful install of the real manifest a fetch of `"/"`
makes zero network calls. -/
theorem cache_hit_no_network_witness :
    cachesMatch { method := "GET", url := "/" }
        [("dwellable-v1", [("/", ⟨200, "x"⟩)])] = some ⟨200, "x"⟩ ∧
    (install (fun _ => some ⟨200, "ok"⟩) []).1 = true ∧
    "/" ∈ urlsToCache ∧
    (fetchEvent (fun _ => none) [("dwellable-v1", [("/", ⟨200, "x"⟩)])]
        { method := "GET", url := "/" } =
      ([("dwellable-v1", [("/", ⟨200, "x"⟩)])], some ⟨200, "x"⟩, 0) ∧
    (fetchEvent (fun _ => none)
        (install (fun _ => some ⟨200, "ok"⟩) []).2
        { method := "GET", url := "/" }).2.2 = 0) :=
  ⟨by decide, by decide, by decide,
    cache_hit_no_network (fun _ => none) (fun _ => some ⟨200, "ok"⟩)
      (fun _ => none) [("dwellable-v1", [("/", ⟨200, "x"⟩)])] []
      { method := "GET", url := "/" } ⟨200, "x"⟩ "/"
      (by decide) (by decide) (by decide)⟩

/-- C2: if the install-time fetch of any single manifest URL fails (network
failure or non-success status), the whole install fails, the generation does
not activate, and the generation's store is never left partially populated:
when it did not exist before, it is left present but empty. -/
theorem install_all_or_nothing (net : Network) (cs : CacheStorage)
    (h : ∃ u ∈ urlsToCache, fetchOk net u = false) :
    generationActivates net cs = false ∧
    (alookup CACHE_NAME cs = none →
      alookup CACHE_NAME (install net cs).2 = some []) := by
  obtain ⟨u, hu, hfail⟩ := h
  have hf : fetchAll net urlsToCache = none :=
    fetchAll_of_failure net urlsToCache u hu hfail
  constructor
  · simp [generationActivates, install, installWith, installGen, hf]
  · intro h0
    simp only [install, installWith, installGen, hf]
    exact alookup_openCache_absent CACHE_NAME cs h0

/-- C2 witness: a network that fails on every request makes install fail,
leaves the generation inactive and the store present but empty. -/
theorem install_all_or_nothing_witness :
    (∃ u ∈ urlsToCache, fetchOk (fun _ => none) u = false) ∧
    (generationActivates (fun _ => none) [] = false ∧
      (alookup CACHE_NAME ([] : CacheStorage) = none →
        alookup CACHE_NAME (install (fun _ => none) []).2 = some [])) :=
  ⟨⟨"/", by decide, by decide⟩,
    install_all_or_nothing (fun _ => none) [] ⟨"/", by decide, by decide⟩⟩

/-- C3: on a cache miss the fetch handler issues exactly one network call,
responds with its result unmodified, leaves the cache storage untouched, and
the fetched response is not subsequently found in any store. -/
theorem cache_miss_passthrough (net : Network) (cs : CacheStorage)
    (req : Request) (hmiss : cachesMatch req cs = none) :
    fetchEvent net cs req = (cs, net req, 1) ∧
    cachesMatch req (fetchEvent net cs req).1 = none := by
  constructor
  · simp [fetchEvent, hmiss]
  · rw [fetchEvent_storage]
    exact hmiss

/-- C3 witness: a miss at an empty storage is passed through to the network
once and nothing is cached. -/
theorem cache_miss_passthrough_witness :
    cachesMatch { method := "GET", url := "/b.png" } [] = none ∧
    (fetchEvent (fun _ => some ⟨200, "net"⟩) []
        { method := "GET", url := "/b.png" } =
      ([], some ⟨200, "net"⟩, 1) ∧
    cachesMatch { method := "GET", url := "/b.png" }
      (fetchEvent (fun _ => some ⟨200, "net"⟩) []
        { method := "GET", url := "/b.png" }).1 = none) :=
  ⟨by decide,
    cache_miss_passthrough (fun _ => some ⟨200, "net"⟩) []
      { method := "GET", url := "/b.png" } (by decide)⟩

/-- C4 counterexample: the fetch handler does not look up only the current
generation's store. With a stale store `dwellable-v0` holding `/old.html`
and the current store `dwellable-v1` empty, the handler serves the stale
entry with zero network calls, while a lookup restricted to the current
generation's store reports a miss. -/
theorem fetch_serves_stale_generation :
    (fetchEvent (fun _ => none)
        [("dwellable-v0", [("/old.html", ⟨200, "old"⟩)]), ("dwellable-v1", [])]
        { method := "GET", url := "/old.html" }).2.1 = some ⟨200, "old"⟩ ∧
    currentGenMatch { method := "GET", url := "/old.html" }
        [("dwellable-v0", [("/old.html", ⟨200, "old"⟩)]), ("dwellable-v1", [])]
      = none ∧
    (fetchEvent (fun _ => none)
        [("dwellable-v0", [("/old.html", ⟨200, "old"⟩)]), ("dwellable-v1", [])]
        { method := "GET", url := "/old.html" }).2.2 = 0 := by
  refine ⟨?_, ?_, ?_⟩ <;> decide

/-- C4 amended: the fetch handler searches every store of the cache storage
in creation order and serves the first match with no network call — whatever
store (current or stale generation) that match lives in. -/
theorem fetch_first_store_wins (net : Network) (n : String) (c : Cache)
    (cs : CacheStorage) (req : Request) (r : Response)
    (h : cacheMatch req c = some r) :
    fetchEvent net ((n, c) :: cs) req = ((n, c) :: cs, some r, 0) := by
  simp [fetchEvent, cachesMatch, h]

/-- C4 witness: the stale store at the head of the storage wins. -/
theorem fetch_first_store_wins_witness :
    cacheMatch { method := "GET", url := "/old.html" }
        [("/old.html", (⟨200, "old"⟩ : Response))] = some ⟨200, "old"⟩ ∧
    fetchEvent (fun _ => none)
        [("dwellable-v0", [("/old.html", ⟨200, "old"⟩)]), ("dwellable-v1", [])]
        { method := "GET", url := "/old.html" } =
      ([("dwellable-v0", [("/old.html", ⟨200, "old"⟩)]), ("dwellable-v1", [])],
        some ⟨200, "old"⟩, 0) :=
  ⟨by decide,
    fetch_first_store_wins (fun _ => none) "dwellable-v0"
      [("/old.html", ⟨200, "old"⟩)] [("dwellable-v1", [])]
      { method := "GET", url := "/old.html" } ⟨200, "old"⟩ (by decide)⟩

/-- C5: when a cache-miss network fetch fails, the failure is propagated
unchanged to the requester — no retry, no fallback — and the whole event is
observationally identical to an uncached failed fetch. -/
theorem miss_network_failure_propagated (net : Network) (cs : CacheStorage)
    (req : Request) (hmiss : cachesMatch req cs = none)
    (hfail : net req = none) :
    (fetchEvent net cs req).2.1 = none ∧
    fetchEvent net cs req = uncachedFetch net cs req := by
  constructor
  · simp [fetchEvent, hmiss, hfail]
  · simp [fetchEvent, uncachedFetch, hmiss]

/-- C5 witness: a failing network on a miss yields a propagated failure
identical to the uncached behaviour. -/
theorem miss_network_failure_propagated_witness :
    cachesMatch { method := "GET", url := "/b.png" } [] = none ∧
    (fun _ => none : Network) { method := "GET", url := "/b.png" } = none ∧
    ((fetchEvent (fun _ => none) [] { method := "GET", url := "/b.png" }).2.1
        = none ∧
      fetchEvent (fun _ => none) [] { method := "GET", url := "/b.png" } =
        uncachedFetch (fun _ => none) [] { method := "GET", url := "/b.png" }) :=
  ⟨by decide, by decide,
    miss_network_failure_propagated (fun _ => none) []
      { method := "GET", url := "/b.png" } (by decide) (by decide)⟩

/-- C9: a non-GET request never hits the cache: the fetch handler behaves on
it exactly like an uncached fetch, issuing one network call. -/
theorem non_get_falls_through (net : Network) (cs : CacheStorage)
    (req : Request) (h : req.method ≠ "GET") :
    fetchEvent net cs req = uncachedFetch net cs req ∧
    (fetchEvent net cs req).2.2 = 1 := by
  have hm := cachesMatch_nonGET req cs h
  constructor
  · simp [fetchEvent, uncachedFetch, hm]
  · simp [fetchEvent, hm]

/-- C9 witness: a POST to a URL that is cached for GET still goes to the
network. -/
theorem non_get_falls_through_witness :
    ({ method := "POST", url := "/" } : Request).method ≠ "GET" ∧
    (fetchEvent (fun _ => some ⟨200, "net"⟩)
        [("dwellable-v1", [("/", ⟨200, "x"⟩)])]
        { method := "POST", url := "/" } =
      uncachedFetch (fun _ => some ⟨200, "net"⟩)
        [("dwellable-v1", [("/", ⟨200, "x"⟩)])]
        { method := "POST", url := "/" } ∧
    (fetchEvent (fun _ => some ⟨200, "net"⟩)
        [("dwellable-v1", [("/", ⟨200, "x"⟩)])]
        { method := "POST", url := "/" }).2.2 = 1) :=
  ⟨by decide,
    non_get_falls_through (fun _ => some ⟨200, "net"⟩)
      [("dwellable-v1", [("/", ⟨200, "x"⟩)])]
      { method := "POST", url := "/" } (by decide)⟩

/-- C7: generation isolation — installing under one tag leaves the store of
every other tag unchanged, and deleting one tag's store leaves every other
tag's store unchanged while removing its own. -/
theorem generation_isolation (tag tag' : String) (net : Network)
    (cs : CacheStorage) (h : tag' ≠ tag) :
    alookup tag' (installWith tag net cs).2 = alookup tag' cs ∧
    alookup tag' (deleteCache tag cs) = alookup tag' cs ∧
    alookup tag (deleteCache tag cs) = none :=
  ⟨alookup_installGen_other tag tag' urlsToCache net cs h,
    alookup_deleteCache_other tag' tag cs h,
    alookup_deleteCache_self tag cs⟩

/-- C7 witness: with tags `dwellable-v1` and `dwellable-v2` on a concrete
storage, install and delete under one tag leave the other store unchanged. -/
theorem generation_isolation_witness :
    ("dwellable-v2" : String) ≠ "dwellable-v1" ∧
    (alookup "dwellable-v2"
        (installWith "dwellable-v1" (fun _ => none)
          [("dwellable-v2", [("/", ⟨200, "x"⟩)])]).2 =
      alookup "dwellable-v2" [("dwellable-v2", [("/", ⟨200, "x"⟩)])] ∧
    alookup "dwellable-v2"
        (deleteCache "dwellable-v1" [("dwellable-v2", [("/", ⟨200, "x"⟩)])]) =
      alookup "dwellable-v2" [("dwellable-v2", [("/", ⟨200, "x"⟩)])] ∧
    alookup "dwellable-v1"
        (deleteCache "dwellable-v1" [("dwellable-v2", [("/", ⟨200, "x"⟩)])]) =
      none) :=
  ⟨by decide,
    generation_isolation "dwellable-v1" "dwellable-v2" (fun _ => none)
      [("dwellable-v2", [("/", ⟨200, "x"⟩)])] (by decide)⟩

/-- C8: no generation cleanup ever occurs — the worker registers no
`activate` listener, install leaves every store of a different tag
unchanged, fetch handling never mutates the storage, and installing under a
bumped tag creates that tag's store alongside the untouched old one. -/
theorem no_generation_cleanup (net : Network) (cs : CacheStorage)
    (req : Request) (tag' : String) (h : tag' ≠ CACHE_NAME) :
    "activate" ∉ registeredEvents ∧
    alookup tag' (install net cs).2 = alookup tag' cs ∧
    (fetchEvent net cs req).1 = cs ∧
    (∃ c, alookup tag' (installWith tag' net cs).2 = some c) ∧
    alookup CACHE_NAME (installWith tag' net cs).2 = alookup CACHE_NAME cs :=
  ⟨by decide,
    alookup_installGen_other CACHE_NAME tag' urlsToCache net cs h,
    fetchEvent_storage net cs req,
    alookup_installGen_self tag' urlsToCache net cs,
    alookup_installGen_other tag' CACHE_NAME urlsToCache net cs (Ne.symm h)⟩

/-- C8 witness: bumping the tag to `dwellable-v2` creates a new store and
leaves the `dwellable-v1` store untouched; fetch handling mutates nothing. -/
theorem no_generation_cleanup_witness :
    ("dwellable-v2" : String) ≠ CACHE_NAME ∧
    ("activate" ∉ registeredEvents ∧
      alookup "dwellable-v2"
          (install (fun _ => none) [("dwellable-v1", [("/", ⟨200, "x"⟩)])]).2 =
        alookup "dwellable-v2" [("dwellable-v1", [("/", ⟨200, "x"⟩)])] ∧
      (fetchEvent (fun _ => none) [("dwellable-v1", [("/", ⟨200, "x"⟩)])]
          { method := "GET", url := "/" }).1 =
        [("dwellable-v1", [("/", ⟨200, "x"⟩)])] ∧
      (∃ c, alookup "dwellable-v2"
          (installWith "dwellable-v2" (fun _ => none)
            [("dwellable-v1", [("/", ⟨200, "x"⟩)])]).2 = some c) ∧
      alookup CACHE_NAME
          (installWith "dwellable-v2" (fun _ => none)
            [("dwellable-v1", [("/", ⟨200, "x"⟩)])]).2 =
        alookup CACHE_NAME [("dwellable-v1", [("/", ⟨200, "x"⟩)])]) :=
  ⟨by decide,
    no_generation_cleanup (fun _ => none)
      [("dwellable-v1", [("/", ⟨200, "x"⟩)])]
      { method := "GET", url := "/" } "dwellable-v2" (by decide)⟩

/-- C6: install is idempotent — after a successful install, running the
install handler again succeeds, yields the same set of cached keys for the
generation's store, and (starting from an absent store) produces no
duplicate keys. -/
theorem install_idempotent (net : Network) (cs : CacheStorage)
    (h : (install net cs).1 = true) :
    (install net (install net cs).2).1 = true ∧
    storeKeys CACHE_NAME (install net (install net cs).2).2 =
      storeKeys CACHE_NAME (install net cs).2 ∧
    (alookup CACHE_NAME cs = none →
      ∀ l, storeKeys CACHE_NAME (install net (install net cs).2).2 = some l →
        l.Nodup) := by
  unfold install installWith installGen at h ⊢
  cases hf : fetchAll net urlsToCache with
  | none => rw [hf] at h; simp at h
  | some entries =>
    simp only [hf]
    obtain ⟨c0, hc0⟩ := alookup_openCache_self CACHE_NAME cs
    have h1 : alookup CACHE_NAME
        (updateStore CACHE_NAME (fun c => putAll entries c)
          (openCache CACHE_NAME cs)) = some (putAll entries c0) := by
      rw [alookup_updateStore_self, hc0]
      rfl
    have hopen2 : openCache CACHE_NAME
        (updateStore CACHE_NAME (fun c => putAll entries c)
          (openCache CACHE_NAME cs)) =
        updateStore CACHE_NAME (fun c => putAll entries c)
          (openCache CACHE_NAME cs) :=
      openCache_of_present _ _ (by simp [h1])
    have hcov : cacheKeys (putAll entries (putAll entries c0)) =
        cacheKeys (putAll entries c0) :=
      cacheKeys_putAll_covered entries _
        (fun w hw => mem_cacheKeys_putAll entries c0 w (Or.inl hw))
    refine ⟨by trivial, ?_, ?_⟩
    · show storeKeys CACHE_NAME _ = storeKeys CACHE_NAME _
      rw [hopen2]
      unfold storeKeys
      rw [alookup_updateStore_self, h1]
      simp only [Option.map_some']
      rw [hcov]
    · intro h0 l hl
      have hc0' : c0 = [] := by
        have ha := alookup_openCache_absent CACHE_NAME cs h0
        rw [hc0] at ha
        exact Option.some.inj ha
      rw [hopen2] at hl
      unfold storeKeys at hl
      rw [alookup_updateStore_self, h1] at hl
      simp only [Option.map_some', Option.some.injEq] at hl
      rw [← hl]
      refine nodup_cacheKeys_putAll entries _ (nodup_cacheKeys_putAll entries _ ?_)
      rw [hc0']
      simp [cacheKeys]

/-- C6 witness: installing twice over an initially empty storage with a
succeeding network keeps success, the key set, and key uniqueness. -/
theorem install_idempotent_witness :
    (install (fun _ => some ⟨200, "ok"⟩) []).1 = true ∧
    ((install (fun _ => some ⟨200, "ok"⟩)
        (install (fun _ => some ⟨200, "ok"⟩) []).2).1 = true ∧
      storeKeys CACHE_NAME
          (install (fun _ => some ⟨200, "ok"⟩)
            (install (fun _ => some ⟨200, "ok"⟩) []).2).2 =
        storeKeys CACHE_NAME (install (fun _ => some ⟨200, "ok"⟩) []).2 ∧
      (alookup CACHE_NAME ([] : CacheStorage) = none →
        ∀ l, storeKeys CACHE_NAME
            (install (fun _ => some ⟨200, "ok"⟩)
              (install (fun _ => some ⟨200, "ok"⟩) []).2).2 = some l →
          l.Nodup)) :=
  ⟨by decide, install_idempotent (fun _ => some ⟨200, "ok"⟩) [] (by decide)⟩
